import Mathlib

/-!
Verification development for the adbb entity layer (src/adbb/animeobjs.py).

Shallow embedding: the pure decision logic of the module is translated into
executable Lean definitions.  Stateful pieces (cache rows, the refresh lock,
emitted requests and commits) are modelled by explicit state passing, event
lists, and a step relation.  Python exceptions are modelled with Except.
-/

namespace Adbb

/-! ## Anime relation merge (Anime._db_data_callback, lines 115-168)

A stored relation row (AnimeRelationTable already in the cache) is identified
by its primary key pk; mutating its relation_type keeps that identity.  A
response relation is a (related_aid, relation_type) pair obtained from the
parallel related_aid_list and related_aid_type fields. -/

structure StoredRel where
  pk : Nat
  related_aid : Nat
  relation_type : Nat
deriving Repr, DecidableEq

structure RespRel where
  related_aid : Nat
  relation_type : Nat
deriving Repr, DecidableEq

/-- an entry of the new_relations list built by the merge loop: either a
reference to a stored row (identified by pk, mutated in place) or a freshly
built AnimeRelationTable that has no primary key yet -/
inductive NewRel where
  | kept (pk : Nat)
  | fresh (related_aid : Nat) (relation_type : Nat)
deriving Repr, DecidableEq

/-- stored rows whose related_aid matches (the inner for loop over
self.db_data.relations) -/
def hits (st : List StoredRel) (aid : Nat) : List StoredRel :=
  st.filter fun sr => sr.related_aid == aid

/-- in-place mutation sr.relation_type = r.relation_type performed on every
matching stored row -/
def overwrite (st : List StoredRel) (aid t : Nat) : List StoredRel :=
  st.map fun sr =>
    if sr.related_aid = aid then { sr with relation_type := t } else sr

/-- the outer for loop over the response relations: carries the (mutated)
stored rows and the accumulated new_relations list -/
def mergeLoop : List RespRel → List StoredRel × List NewRel →
    List StoredRel × List NewRel
  | [], p => p
  | r :: rs, (st, acc) =>
      let h := hits st r.related_aid
      if h.isEmpty then
        mergeLoop rs (st, acc ++ [NewRel.fresh r.related_aid r.relation_type])
      else
        mergeLoop rs (overwrite st r.related_aid r.relation_type,
                      acc ++ h.map fun sr => NewRel.kept sr.pk)

/-- one relation row as observable after the merge: ident records whether the
row kept the storage identity of a pre-existing row (some pk) or is new -/
structure RelView where
  ident : Option Nat
  related_aid : Nat
  relation_type : Nat
deriving Repr, DecidableEq

/-- reading a new_relations entry back after the loop: a kept reference
reflects all mutations applied to the stored row -/
def resolveRel (st : List StoredRel) : NewRel → RelView
  | NewRel.kept k =>
      match st.find? (fun sr => sr.pk == k) with
      | some sr => ⟨some k, sr.related_aid, sr.relation_type⟩
      | none => ⟨some k, 0, 0⟩
  | NewRel.fresh a t => ⟨none, a, t⟩

/-- the deletion loop: every stored row not appended to new_relations
(membership is object identity, modelled by pk) is deleted -/
def deletedRows (st : List StoredRel) (acc : List NewRel) : List StoredRel :=
  st.filter fun sr => !(decide (NewRel.kept sr.pk ∈ acc))

/-- full relation reconciliation of Anime._db_data_callback when a cache row
exists: returns the final relations (in new_relations order) and the rows
deleted from the cache -/
def mergeRelations (stored : List StoredRel) (resp : List RespRel) :
    List RelView × List StoredRel :=
  let p := mergeLoop resp (stored, [])
  (p.2.map (resolveRel p.1), deletedRows p.1 p.2)

/-- the merge result the specification describes, keyed by related id: a
matched id keeps the storage identity of the stored row with the type
overwritten, an unmatched id is inserted as a new row -/
def specMergedRel (stored : List StoredRel) (r : RespRel) : RelView :=
  match stored.find? (fun sr => sr.related_aid == r.related_aid) with
  | some sr => ⟨some sr.pk, r.related_aid, r.relation_type⟩
  | none => ⟨none, r.related_aid, r.relation_type⟩

/-- related ids reported by the response -/
def respAids (resp : List RespRel) : List Nat :=
  resp.map RespRel.related_aid

/-- spec-side row-wise description of the mutation pass: a stored row whose
related id is reported gets the reported type, all other rows are untouched -/
def respTypeUpdate (resp : List RespRel) (sr : StoredRel) : StoredRel :=
  match resp.find? (fun r => r.related_aid == sr.related_aid) with
  | some r => { sr with relation_type := r.relation_type }
  | none => sr

/-- spec-side description of the new_relations entry produced for one
response relation -/
def specNewRel (st : List StoredRel) (r : RespRel) : NewRel :=
  match st.find? (fun sr => sr.related_aid == r.related_aid) with
  | some sr => NewRel.kept sr.pk
  | none => NewRel.fresh r.related_aid r.relation_type

/-- an AnimeTable cache row: scalar field map, updated stamp, relation rows -/
structure AnimeRow where
  scalars : List (String × String)
  updated : Nat
  relations : List StoredRel
deriving Repr, DecidableEq

/-- primary keys are assigned to the fresh relation rows when the session is
committed; kept rows keep their pk.  The supply models the keys the storage
engine hands out, consumed in order. -/
def assignPks : List Nat → List RelView → List StoredRel
  | _, [] => []
  | supply, v :: vs =>
      match v.ident with
      | some k => ⟨k, v.related_aid, v.relation_type⟩ :: assignPks supply vs
      | none =>
          match supply with
          | [] => ⟨0, v.related_aid, v.relation_type⟩ :: assignPks [] vs
          | k :: ks => ⟨k, v.related_aid, v.relation_type⟩ :: assignPks ks vs

/-- merge of a parsed anime response into an existing cache row: scalar
fields updated in place, updated stamped now, relations reconciled; returns
the updated row and the deleted relation rows -/
def mergeAnimeRow (row : AnimeRow) (respScalars : List (String × String))
    (resp : List RespRel) (now : Nat) (supply : List Nat) :
    AnimeRow × List StoredRel :=
  let m := mergeRelations row.relations resp
  ({ scalars := respScalars, updated := now,
     relations := assignPks supply m.1 }, m.2)

/-! ## Python int() and the anime callback head -/

/-- Python exceptions that the modelled code can raise -/
inductive PyError where
  | typeError
  | valueError
deriving Repr, DecidableEq

/-- whitespace as stripped by Python int() around its argument -/
def isPySpace (c : Char) : Bool :=
  c == ' ' || c == '\t' || c == '\n' || c == '\r'

/-- decimal digit run to a number; empty or non-digit input raises ValueError
(modelled as none) -/
def parseDigits (cs : List Char) : Option Nat :=
  match cs with
  | [] => none
  | _ =>
      cs.foldl
        (fun acc c =>
          acc.bind fun n =>
            if c.isDigit then some (n * 10 + (c.toNat - 48)) else none)
        (some 0)

/-- Python int(str): surrounding whitespace stripped, optional sign, decimal
digits; anything else raises ValueError (modelled as none).  Digit-group
underscores and non-ASCII digits are outside the scope of this model. -/
def parsePyInt (s : String) : Option Int :=
  let t := ((s.data.dropWhile isPySpace).reverse.dropWhile isPySpace).reverse
  match t with
  | [] => none
  | c :: rest =>
      if c == '-' then (parseDigits rest).map fun n => -(n : Int)
      else if c == '+' then (parseDigits rest).map fun n => (n : Int)
      else (parseDigits t).map fun n => (n : Int)

/-- decimal digits of n, least significant first; the first argument is fuel
bounding the recursion depth -/
def natRevDigits : Nat → Nat → List Char
  | 0, _ => []
  | fuel + 1, n =>
      if n = 0 then []
      else Char.ofNat (48 + n % 10) :: natRevDigits fuel (n / 10)

/-- canonical decimal rendering of a natural number -/
def pyNatToString (n : Nat) : String :=
  if n = 0 then "0" else String.mk (natRevDigits n n).reverse

/-- Python str() of an integer -/
def pyIntToString (i : Int) : String :=
  if i < 0 then String.mk ('-' :: (pyNatToString (-i).toNat).data)
  else pyNatToString i.toNat

/-- split("...") on the single-quote character used to separate list values
in anidb responses -/
def pySplitQuote (s : String) : List String :=
  s.split fun c => c == Char.ofNat 39

/-- events observable during a refresh callback -/
inductive RefreshEvent where
  | commitCall
  | logWarning
  | rollback
  | setUpdated
deriving Repr, DecidableEq

/-- zipping related_aid_list with related_aid_type and converting each pair:
int(x) on the id (ValueError on malformed input) and the relation map on the
type field -/
def parseRelations (ids types : String) (relMap : String → Nat) :
    Except PyError (List RespRel) :=
  match ((pySplitQuote ids).zip (pySplitQuote types)).mapM
      (fun p => (parsePyInt p.1).map fun n => RespRel.mk n.toNat (relMap p.2)) with
  | some l => Except.ok l
  | none => Except.error PyError.valueError

/-- Anime._db_data_callback: when the first data record does not contain both
related_aid_list and related_aid_type the relations variable stays None and
the unconditional list comprehension over it raises TypeError, before any
cache row is read, updated or created and before _updated is set.  On the
normal path the scalar fields (with the two relation fields removed and the
per-field converters applied) are merged and commit plus completion events
are emitted.  relMap models adbb.mapper.anime_relation_map, conv models
adbb.mapper.anime_map_a_converters. -/
def anime_db_data_callback (ainfo : List (String × String))
    (row : Option AnimeRow) (relMap : String → Nat)
    (conv : String → String → String) (now : Nat) (supply : List Nat) :
    Except PyError (AnimeRow × List StoredRel × List RefreshEvent) :=
  match ainfo.lookup "related_aid_list", ainfo.lookup "related_aid_type" with
  | some ids, some types =>
      (match parseRelations ids types relMap with
       | Except.error e => Except.error e
       | Except.ok rels =>
          let scalars0 := ainfo.filter fun p =>
            p.1 != "related_aid_list" && p.1 != "related_aid_type"
          let scalars := scalars0.map fun p => (p.1, conv p.1 p.2)
          match row with
          | some r =>
              let m := mergeAnimeRow r scalars rels now supply
              Except.ok (m.1, m.2,
                [RefreshEvent.commitCall, RefreshEvent.setUpdated])
          | none =>
              let fresh := rels.map fun r2 =>
                RelView.mk none r2.related_aid r2.relation_type
              Except.ok (AnimeRow.mk scalars now (assignPks supply fresh), [],
                [RefreshEvent.commitCall, RefreshEvent.setUpdated]))
  | _, _ => Except.error PyError.typeError

/-! ## EntityBase: staleness policy, refresh lock, commit helper -/

/-- the slice of a cache row that update_if_old inspects -/
structure DbRec where
  updated : Int
deriving Repr, DecidableEq

/-- what update_if_old decides to do -/
inductive UpdateCall where
  | noCall
  | call (block : Bool)
deriving Repr, DecidableEq

/-- AniDBObj.update_if_old(age, block): without a cache row it calls
update(block=True) unconditionally; with one it calls update(block) exactly
when updated is not newer than now - age -/
def update_if_old (db_data : Option DbRec) (now age : Int) (block : Bool) :
    UpdateCall :=
  match db_data with
  | none => UpdateCall.call true
  | some d =>
      if d.updated ≤ now - age then UpdateCall.call block else UpdateCall.noCall

/-- refresh-lock state of one entity instance: whether _updating is held, how
many refreshes are in flight, and how many were ever launched -/
structure EntityLockState where
  locked : Bool
  inflight : Nat
  launches : Nat
deriving Repr, DecidableEq

def idleEntity : EntityLockState := ⟨false, 0, 0⟩

/-- AniDBObj.update with block=False: _updating.acquire(False); when the
acquire fails the call returns at once without launching anything; when it
succeeds _fetch_anidb_data starts the refresh thread -/
def updateNonBlocking (s : EntityLockState) : EntityLockState :=
  if s.locked then s
  else ⟨true, s.inflight + 1, s.launches + 1⟩

/-- tail of _send_anidb_update_req: _updated.wait() returns and the refresh
thread releases _updating -/
def finishRefresh (s : EntityLockState) : EntityLockState :=
  ⟨false, s.inflight - 1, s.launches⟩

/-- interleaving semantics of concurrent calls on one entity: an update call
(blocking and non-blocking behave alike on the lock-free path), the stutter
of a blocking caller waiting on a held lock (acquire(True) then release,
launching nothing), and completion of the in-flight refresh -/
inductive EntityStep : EntityLockState → EntityLockState → Prop where
  | upd (s : EntityLockState) : EntityStep s (updateNonBlocking s)
  | blockedWait (s : EntityLockState) : s.locked = true → EntityStep s s
  | finish (s : EntityLockState) : s.locked = true → 0 < s.inflight →
      EntityStep s (finishRefresh s)

/-- states reachable from an idle entity -/
def entityReachable (s : EntityLockState) : Prop :=
  Relation.ReflTransGen EntityStep idleEntity s

/-- outcome of the underlying session commit -/
inductive DbError where
  | dbApiError
  | otherError
deriving Repr, DecidableEq

/-- AniDBObj._db_commit: try self._db.commit(); a DBAPIError is caught, a
warning is logged and the transaction rolled back, and the helper returns
normally; any other exception propagates -/
def db_commit (commitOutcome : Option DbError) :
    List RefreshEvent × Option DbError :=
  match commitOutcome with
  | none => ([RefreshEvent.commitCall], none)
  | some DbError.dbApiError =>
      ([RefreshEvent.commitCall, RefreshEvent.logWarning,
        RefreshEvent.rollback], none)
  | some DbError.otherError => ([RefreshEvent.commitCall],
      some DbError.otherError)

/-- tail of every data callback: self._db_commit() followed by
self._updated.set(); the completion signal is reached whenever _db_commit
returns normally -/
def callbackFinish (commitOutcome : Option DbError) :
    List RefreshEvent × Option DbError :=
  let p := db_commit commitOutcome
  match p.2 with
  | none => (p.1 ++ [RefreshEvent.setUpdated], none)
  | some e => (p.1, some e)

/-! ## Episode: episode-number handling -/

/-- epno handling in Episode.__init__: the try block computes str(int(epno))
but discards the result (and swallows the ValueError), so _episode_number is
always assigned the raw argument -/
def episodeInitEpno (epno : String) : String :=
  match parsePyInt epno with
  | some _ => epno
  | none => epno

/-- epno conversion in Episode._anidb_data_callback: the field is replaced by
str(int(data)) when int() succeeds and kept verbatim on ValueError -/
def episodeCallbackEpno (data : String) : String :=
  match parsePyInt data with
  | some n => pyIntToString n
  | none => data

/-! ## File: status bitmask, cache lookup, mylist mutation -/

/-- the three fields derived from the numeric state of a file response -/
structure StatusDecode where
  crc_ok : Option Bool
  file_version : Nat
  censored : Option Bool
deriving Repr, DecidableEq

/-- chained bit checks of File._anidb_file_data_callback: Python truthiness
of state & mask is mask-and nonzero -/
def decodeFileState (state : Nat) : StatusDecode :=
  let crc :=
    if state &&& 0x1 ≠ 0 then some true
    else if state &&& 0x2 ≠ 0 then some false
    else none
  let ver :=
    if state &&& 0x4 ≠ 0 then 2
    else if state &&& 0x8 ≠ 0 then 3
    else if state &&& 0x10 ≠ 0 then 4
    else if state &&& 0x20 ≠ 0 then 5
    else 1
  let cen :=
    if state &&& 0x40 ≠ 0 then some false
    else if state &&& 0x80 ≠ 0 then some true
    else none
  ⟨crc, ver, cen⟩

/-- the decode the specification describes, phrased with individual bits -/
def specFileState (state : Nat) : StatusDecode :=
  let crc :=
    if state.testBit 0 = true then some true
    else if state.testBit 1 = true then some false
    else none
  let ver :=
    if state.testBit 2 = true then 2
    else if state.testBit 3 = true then 3
    else if state.testBit 4 = true then 4
    else if state.testBit 5 = true then 5
    else 1
  let cen :=
    if state.testBit 6 = true then some false
    else if state.testBit 7 = true then some true
    else none
  ⟨crc, ver, cen⟩

/-- a FileTable cache row as far as the path lookup inspects it -/
structure FileRow where
  pk : Nat
  size : Nat
deriving Repr, DecidableEq

/-- events observable while constructing a File from a path -/
inductive FileInitEvent where
  | statCall
  | dbDelete (pk : Nat)
  | dbCommit
  | remoteRequest
deriving Repr, DecidableEq

/-- File._get_db_data on the path branch: rows is the query result for the
path; when the first row disagrees with the freshly probed size it is
deleted, the deletion committed and the result list emptied, so no cache row
is adopted -/
def file_get_db_data (rows : List FileRow) (probedSize : Nat) :
    Option FileRow × List FileInitEvent :=
  match rows with
  | [] => (none, [])
  | r :: _ =>
      if r.size ≠ probedSize then
        (none, [FileInitEvent.dbDelete r.pk, FileInitEvent.dbCommit])
      else
        (some r, [])

/-- File.__init__ from a path: probe size and mtime, then run the cache
lookup; construction sends no remote request -/
def fileInitFromPath (rows : List FileRow) (probedSize : Nat) :
    Option FileRow × List FileInitEvent :=
  let p := file_get_db_data rows probedSize
  (p.1, FileInitEvent.statCall :: p.2)

/-- mylist mutation requests -/
inductive MylistReq where
  | addByFid (fid : Nat)
  | addByAidEpno (aid : Nat) (epno : String)
  | addBySizeHash (size : Nat) (hash : String)
  | delByFid (fid : Nat)
  | delByAidEpno (aid : Nat) (epno : String)
  | delBySizeHash (size : Nat) (hash : String)
deriving Repr, DecidableEq

/-- events observable during a mylist mutation -/
inductive MylistEvent where
  | request (r : MylistReq)
  | waitConfirm
  | localMylistUpdate
  | commit
deriving Repr, DecidableEq

/-- the first branch condition of File.remove_from_mylist reads self.db,
which __getattr__ resolves to getattr(self.db_data, ..., None); no FileTable
column of that name exists, so the value is always None -/
def fileDbAttr : Option Nat := none

/-- File.add_to_mylist: request emission and the trailing local update.  For
a known fid a single id-keyed request; for a generic file one request per
entry of the guessed episode list (the loop sends epno=ep), each awaited;
otherwise a single size and hash keyed request.  The local mylist fields are
written and committed only after the final wait returns. -/
def add_to_mylist (fid : Option Nat) (isGeneric : Bool) (aid : Nat)
    (episodeEpno : String) (multiep : List String) (size : Nat)
    (hash : String) : List MylistEvent :=
  (match fid with
   | some f => [MylistEvent.request (MylistReq.addByFid f)]
   | none =>
      if isGeneric then
        (if multiep.isEmpty then [episodeEpno] else multiep).flatMap fun ep =>
          [MylistEvent.request (MylistReq.addByAidEpno aid ep),
           MylistEvent.waitConfirm]
      else [MylistEvent.request (MylistReq.addBySizeHash size hash)])
  ++ [MylistEvent.waitConfirm, MylistEvent.localMylistUpdate,
      MylistEvent.commit]

/-- File.remove_from_mylist: the self.db branch is never taken (fileDbAttr);
with a truthy size and hash a single size and hash keyed delete is sent; only
otherwise does the episode loop run, and its request uses
self.episode.episode_number for every iteration, ignoring the loop variable
ep.  No local mylist fields are written. -/
def remove_from_mylist (size : Nat) (hash : String) (aid : Nat)
    (episodeEpno : String) (multiep : List String) : List MylistEvent :=
  (match fileDbAttr with
   | some f => [MylistEvent.request (MylistReq.delByFid f)]
   | none =>
      if size ≠ 0 ∧ hash ≠ "" then
        [MylistEvent.request (MylistReq.delBySizeHash size hash)]
      else
        (if multiep.isEmpty then [episodeEpno] else multiep).flatMap fun _ =>
          [MylistEvent.request (MylistReq.delByAidEpno aid episodeEpno),
           MylistEvent.waitConfirm])
  ++ [MylistEvent.waitConfirm]

/-! ## General helper lemmas -/

/-- Python truthiness of a single-bit mask test -/
theorem and_mask_ne_zero_iff (s m i : Nat) (hm : m = 2 ^ i) :
    (s &&& m ≠ 0) ↔ s.testBit i = true := by
  subst hm
  rw [Nat.and_two_pow]
  cases h : s.testBit i <;>
    simp [h, Nat.pos_iff_ne_zero.mp (Nat.two_pow_pos i)]

/-! ## Claim theorems -/

/-- C5: for every numeric status value in a normal file response the decode
yields crc-match from bit0/bit1, the file version from an ordered mutually
exclusive check of bits 2..5 (none set giving version 1), censored from
bit6/bit7; in particular status 4 (only bit2) gives version 2 with crc-match
and censored unset. -/
theorem c5_file_status_decode (s : Nat) :
    decodeFileState s = specFileState s ∧
    decodeFileState 4 = ⟨none, 2, none⟩ := by
  constructor
  · have h0 := and_mask_ne_zero_iff s 1 0 (by norm_num)
    have h1 := and_mask_ne_zero_iff s 2 1 (by norm_num)
    have h2 := and_mask_ne_zero_iff s 4 2 (by norm_num)
    have h3 := and_mask_ne_zero_iff s 8 3 (by norm_num)
    have h4 := and_mask_ne_zero_iff s 16 4 (by norm_num)
    have h5 := and_mask_ne_zero_iff s 32 5 (by norm_num)
    have h6 := and_mask_ne_zero_iff s 64 6 (by norm_num)
    have h7 := and_mask_ne_zero_iff s 128 7 (by norm_num)
    simp only [decodeFileState, specFileState, h0, h1, h2, h3, h4, h5, h6, h7]
  · decide

/-- C2: the claim says the episode number given at Episode construction is
normalized to the canonical integer string when it parses as an integer.  The
constructor computes str(int(epno)) but discards the result, so the stored
value stays verbatim; only the response callback normalizes. -/
theorem c2_epno_construction_eval :
    episodeInitEpno "05" = "05" ∧ ¬ episodeInitEpno "05" = "5" ∧
    episodeCallbackEpno "05" = "5" ∧
    episodeInitEpno "S2" = "S2" ∧ episodeCallbackEpno "S2" = "S2" := by
  refine ⟨rfl, by decide, by decide, rfl, by decide⟩

/-- C4: update_if_old refreshes blocking unconditionally without a cached
record; with one it calls update(block) exactly when the record is at least
age old and does nothing when it is younger. -/
theorem c4_update_if_old (d : Option DbRec) (now age : Int) (block : Bool) :
    (d = none → update_if_old d now age block = UpdateCall.call true) ∧
    (∀ d0, d = some d0 →
      (d0.updated ≤ now - age →
        update_if_old d now age block = UpdateCall.call block) ∧
      (now - age < d0.updated →
        update_if_old d now age block = UpdateCall.noCall)) := by
  constructor
  · intro h; subst h; rfl
  · intro d0 h; subst h
    constructor
    · intro hle; simp [update_if_old, hle]
    · intro hlt; simp [update_if_old, not_le.mpr hlt]

/-- C4 witness at concrete inputs -/
theorem c4_update_if_old_witness :
    update_if_old none 100 7 false = UpdateCall.call true ∧
    update_if_old (some ⟨90⟩) 100 7 false = UpdateCall.call false ∧
    update_if_old (some ⟨99⟩) 100 7 false = UpdateCall.noCall :=
  ⟨(c4_update_if_old none 100 7 false).1 rfl,
   ((c4_update_if_old (some ⟨90⟩) 100 7 false).2 ⟨90⟩ rfl).1 (by norm_num),
   ((c4_update_if_old (some ⟨99⟩) 100 7 false).2 ⟨99⟩ rfl).2 (by norm_num)⟩

/-- C6: constructing a File from a path whose cached row disagrees with the
probed size deletes the row and commits the deletion during construction,
leaves no cached record, and issues no remote request. -/
theorem c6_stale_size_discard (rows : List FileRow) (probedSize : Nat)
    (r : FileRow) (rest : List FileRow) (hrows : rows = r :: rest)
    (hsz : r.size ≠ probedSize) :
    fileInitFromPath rows probedSize
      = (none, [FileInitEvent.statCall, FileInitEvent.dbDelete r.pk,
                FileInitEvent.dbCommit]) ∧
    FileInitEvent.remoteRequest ∉ (fileInitFromPath rows probedSize).2 := by
  subst hrows
  constructor
  · simp [fileInitFromPath, file_get_db_data, hsz]
  · simp [fileInitFromPath, file_get_db_data, hsz]

/-- C6 witness at a concrete stale row -/
theorem c6_stale_size_discard_witness :
    fileInitFromPath [⟨7, 50⟩] 60
      = (none, [FileInitEvent.statCall, FileInitEvent.dbDelete 7,
                FileInitEvent.dbCommit]) ∧
    FileInitEvent.remoteRequest ∉ (fileInitFromPath [⟨7, 50⟩] 60).2 :=
  c6_stale_size_discard [⟨7, 50⟩] 60 ⟨7, 50⟩ [] rfl (by decide)

/-- C9: a DBAPIError raised by the session commit is recovered inside
_db_commit: the helper logs, rolls back and returns normally, so the
callback still reaches _updated.set() and a blocking wait completes. -/
theorem c9_commit_failure_recovered (o : Option DbError)
    (h : o = some DbError.dbApiError) :
    (db_commit o).2 = none ∧
    RefreshEvent.logWarning ∈ (db_commit o).1 ∧
    RefreshEvent.rollback ∈ (db_commit o).1 ∧
    callbackFinish o
      = ([RefreshEvent.commitCall, RefreshEvent.logWarning,
          RefreshEvent.rollback, RefreshEvent.setUpdated], none) := by
  subst h
  exact ⟨rfl, by decide, by decide, rfl⟩

/-- C9 witness -/
theorem c9_commit_failure_recovered_witness :
    (db_commit (some DbError.dbApiError)).2 = none ∧
    RefreshEvent.logWarning ∈ (db_commit (some DbError.dbApiError)).1 ∧
    RefreshEvent.rollback ∈ (db_commit (some DbError.dbApiError)).1 ∧
    callbackFinish (some DbError.dbApiError)
      = ([RefreshEvent.commitCall, RefreshEvent.logWarning,
          RefreshEvent.rollback, RefreshEvent.setUpdated], none) :=
  c9_commit_failure_recovered (some DbError.dbApiError) rfl

/-- C3: the claim requires both mylist mutations to issue one request per
distinct guessed episode number on a generic multi-episode file.  The add
path does; the remove path instead sends a single size and hash keyed delete
whenever size and hash are truthy, and in its episode loop repeats the first
episode number for every iteration. -/
theorem c3_mylist_mutation_eval :
    remove_from_mylist 100 "abc" 5 "1" ["1", "2"]
      = [MylistEvent.request (MylistReq.delBySizeHash 100 "abc"),
         MylistEvent.waitConfirm] ∧
    remove_from_mylist 0 "" 5 "1" ["1", "2"]
      = [MylistEvent.request (MylistReq.delByAidEpno 5 "1"),
         MylistEvent.waitConfirm,
         MylistEvent.request (MylistReq.delByAidEpno 5 "1"),
         MylistEvent.waitConfirm, MylistEvent.waitConfirm] ∧
    add_to_mylist none true 5 "1" ["1", "2"] 100 "abc"
      = [MylistEvent.request (MylistReq.addByAidEpno 5 "1"),
         MylistEvent.waitConfirm,
         MylistEvent.request (MylistReq.addByAidEpno 5 "2"),
         MylistEvent.waitConfirm, MylistEvent.waitConfirm,
         MylistEvent.localMylistUpdate, MylistEvent.commit] := by
  exact ⟨rfl, rfl, rfl⟩

/-- invariant of the refresh-lock protocol, preserved by every step -/
theorem entityStep_inv {s t : EntityLockState}
    (h : s.inflight ≤ 1 ∧ (s.locked = false → s.inflight = 0))
    (hst : EntityStep s t) :
    t.inflight ≤ 1 ∧ (t.locked = false → t.inflight = 0) := by
  cases hst with
  | upd =>
      unfold updateNonBlocking
      by_cases hl : s.locked = true
      · simpa [hl] using h
      · have hl0 : s.locked = false := by
          revert hl; cases s.locked <;> simp
        have h0 : s.inflight = 0 := h.2 hl0
        simp [hl0, h0]
  | blockedWait hl => exact h
  | finish hl hi =>
      obtain ⟨h1, h2⟩ := h
      constructor
      · simp only [finishRefresh]; omega
      · intro _; simp only [finishRefresh]; omega

/-- every state reachable from idle satisfies the lock invariant -/
theorem entityReachable_inv (s : EntityLockState) (h : entityReachable s) :
    s.inflight ≤ 1 ∧ (s.locked = false → s.inflight = 0) := by
  unfold entityReachable at h
  induction h with
  | refl => exact ⟨by simp [idleEntity], fun _ => by simp [idleEntity]⟩
  | tail hr hstep ih => exact entityStep_inv ih hstep

/-- C8: at most one refresh is outstanding per entity: every reachable state
has at most one in-flight refresh, a non-blocking update during a held lock
is a no-op that launches nothing, and N consecutive non-blocking update
calls starting from idle launch exactly one refresh. -/
theorem c8_single_refresh :
    (∀ s, entityReachable s → s.inflight ≤ 1) ∧
    (∀ s, s.locked = true → updateNonBlocking s = s) ∧
    (∀ n, 1 ≤ n → updateNonBlocking^[n] idleEntity
        = EntityLockState.mk true 1 1) := by
  refine ⟨fun s h => (entityReachable_inv s h).1, ?_, ?_⟩
  · intro s hl; simp [updateNonBlocking, hl]
  · intro n hn
    induction n with
    | zero => omega
    | succ m ih =>
        rcases Nat.eq_zero_or_pos m with h0 | hpos
        · subst h0; decide
        · rw [Function.iterate_succ_apply', ih hpos]; decide

/-- C8 witness -/
theorem c8_single_refresh_witness :
    idleEntity.inflight ≤ 1 ∧
    updateNonBlocking ⟨true, 1, 1⟩ = ⟨true, 1, 1⟩ ∧
    updateNonBlocking^[3] idleEntity = EntityLockState.mk true 1 1 :=
  ⟨c8_single_refresh.1 idleEntity Relation.ReflTransGen.refl,
   c8_single_refresh.2.1 ⟨true, 1, 1⟩ rfl,
   c8_single_refresh.2.2 3 (by norm_num)⟩

/-- C10: when the first data record lacks related_aid_list or
related_aid_type, the callback raises TypeError while iterating the None
relations value; no cache row is updated or created, nothing is committed
and _updated is never set (the error is raised before all of these). -/
theorem c10_missing_relations_type_error (ainfo : List (String × String))
    (row : Option AnimeRow) (relMap : String → Nat)
    (conv : String → String → String) (now : Nat) (supply : List Nat)
    (h : ainfo.lookup "related_aid_list" = none ∨
         ainfo.lookup "related_aid_type" = none) :
    anime_db_data_callback ainfo row relMap conv now supply
      = Except.error PyError.typeError := by
  unfold anime_db_data_callback
  rcases h with h | h
  · rw [h]
  · cases hl : ainfo.lookup "related_aid_list" with
    | none => rfl
    | some ids => rw [h]

/-- C10 witness: a response record with no relation fields -/
theorem c10_missing_relations_type_error_witness :
    ([("year", "2001")] : List (String × String)).lookup "related_aid_list"
      = none ∧
    anime_db_data_callback [("year", "2001")] none (fun _ => 0)
        (fun _ v => v) 0 [] = Except.error PyError.typeError :=
  ⟨by decide,
   c10_missing_relations_type_error [("year", "2001")] none (fun _ => 0)
     (fun _ v => v) 0 [] (Or.inl (by decide))⟩

/-! ## Helper lemmas for the relation merge -/

/-- find? by a nodup-projected key returns the element itself -/
theorem find?_map_self {α β : Type} [BEq β] [LawfulBEq β] (f : α → β)
    (l : List α) (hnd : (l.map f).Nodup) (a : α) (ha : a ∈ l) :
    l.find? (fun x => f x == f a) = some a := by
  induction l with
  | nil => cases ha
  | cons b t ih =>
      obtain ⟨hb, ht⟩ : (∀ x ∈ t, ¬ f x = f b) ∧ (t.map f).Nodup := by
        simpa using hnd
      rcases List.mem_cons.mp ha with rfl | hat
      · exact List.find?_cons_of_pos t (by simp)
      · have hne : ¬ (f b == f a) = true := by
          intro hbeq
          exact hb a hat (eq_of_beq hbeq).symm
        rw [List.find?_cons_of_neg t hne]
        exact ih ht hat

/-- overwrite never changes primary keys -/
theorem overwrite_pk (st : List StoredRel) (a t : Nat) :
    (overwrite st a t).map StoredRel.pk = st.map StoredRel.pk := by
  unfold overwrite
  rw [List.map_map]
  apply List.map_congr_left
  intro sr _
  by_cases h : sr.related_aid = a <;> simp [h, Function.comp]

/-- overwrite never changes related ids -/
theorem overwrite_aid (st : List StoredRel) (a t : Nat) :
    (overwrite st a t).map StoredRel.related_aid
      = st.map StoredRel.related_aid := by
  unfold overwrite
  rw [List.map_map]
  apply List.map_congr_left
  intro sr _
  by_cases h : sr.related_aid = a <;> simp [h, Function.comp]

/-- no matching stored row exactly when find? fails -/
theorem hits_eq_nil (st : List StoredRel) (aid : Nat) :
    hits st aid = [] ↔
      st.find? (fun sr => sr.related_aid == aid) = none := by
  simp [hits, List.filter_eq_nil_iff, List.find?_eq_none]

/-- with nodup related ids the matching rows are exactly the row find?
returns -/
theorem hits_of_find?_some (st : List StoredRel) (aid : Nat) (sr0 : StoredRel)
    (hnd : (st.map StoredRel.related_aid).Nodup)
    (hf : st.find? (fun sr => sr.related_aid == aid) = some sr0) :
    hits st aid = [sr0] := by
  induction st with
  | nil => simp at hf
  | cons b t ih =>
      obtain ⟨hb, ht⟩ :
          (∀ x ∈ t, ¬ x.related_aid = b.related_aid) ∧
            (t.map StoredRel.related_aid).Nodup := by
        simpa using hnd
      by_cases hp : (b.related_aid == aid) = true
      · simp only [List.find?_cons, hp] at hf
        obtain rfl : b = sr0 := by simpa using hf
        have hbaid : b.related_aid = aid := eq_of_beq hp
        have htnil : hits t aid = [] := by
          unfold hits
          apply List.filter_eq_nil_iff.mpr
          intro x hx hxbeq
          exact hb x hx ((eq_of_beq hxbeq).trans hbaid.symm)
        unfold hits
        simp only [List.filter_cons, hp, if_true]
        unfold hits at htnil
        simp [htnil]
      · simp only [Bool.not_eq_true] at hp
        simp only [List.find?_cons, hp] at hf
        unfold hits
        simp only [List.filter_cons, hp, if_false]
        exact ih ht hf

/-- searching by related id commutes with the mutation pass -/
theorem find?_aid_overwrite (st : List StoredRel) (a t b : Nat) :
    (overwrite st a t).find? (fun sr => sr.related_aid == b)
      = (st.find? (fun sr => sr.related_aid == b)).map
          (fun sr =>
            if sr.related_aid = a then { sr with relation_type := t }
            else sr) := by
  unfold overwrite
  rw [List.find?_map]
  have hq : ((fun sr => sr.related_aid == b) ∘
      (fun sr =>
        if sr.related_aid = a then { sr with relation_type := t } else sr))
      = fun sr : StoredRel => sr.related_aid == b := by
    funext sr
    by_cases h : sr.related_aid = a <;> simp [h, Function.comp]
  rw [hq]

theorem respTypeUpdate_nil (sr : StoredRel) : respTypeUpdate [] sr = sr := by
  simp [respTypeUpdate]

theorem respTypeUpdate_pk (resp : List RespRel) (sr : StoredRel) :
    (respTypeUpdate resp sr).pk = sr.pk := by
  unfold respTypeUpdate
  cases resp.find? (fun r => r.related_aid == sr.related_aid) <;> simp

theorem respTypeUpdate_aid (resp : List RespRel) (sr : StoredRel) :
    (respTypeUpdate resp sr).related_aid = sr.related_aid := by
  unfold respTypeUpdate
  cases resp.find? (fun r => r.related_aid == sr.related_aid) <;> simp

/-- specNewRel only reads related ids and pks, which overwrite preserves -/
theorem specNewRel_overwrite (st : List StoredRel) (a t : Nat) (r : RespRel) :
    specNewRel (overwrite st a t) r = specNewRel st r := by
  unfold specNewRel
  rw [find?_aid_overwrite]
  cases st.find? (fun sr => sr.related_aid == r.related_aid) with
  | none => rfl
  | some sr => by_cases h : sr.related_aid = a <;> simp [h]

theorem respTypeUpdate_cons_eq (r : RespRel) (rs : List RespRel)
    (sr : StoredRel) (h : (r.related_aid == sr.related_aid) = true) :
    respTypeUpdate (r :: rs) sr = { sr with relation_type := r.relation_type }
    := by
  simp only [respTypeUpdate, List.find?_cons, h]

theorem respTypeUpdate_cons_ne (r : RespRel) (rs : List RespRel)
    (sr : StoredRel) (h : (r.related_aid == sr.related_aid) = false) :
    respTypeUpdate (r :: rs) sr = respTypeUpdate rs sr := by
  simp only [respTypeUpdate, List.find?_cons, h]

/-- rows whose related id the response does not report are untouched -/
theorem respTypeUpdate_not_mem (resp : List RespRel) (sr : StoredRel)
    (h : sr.related_aid ∉ respAids resp) :
    respTypeUpdate resp sr = sr := by
  unfold respTypeUpdate
  have hnone : resp.find? (fun r2 => r2.related_aid == sr.related_aid)
      = none := by
    apply List.find?_eq_none.mpr
    intro r2 hr2 hbeq
    apply h
    rw [← eq_of_beq hbeq]
    exact List.mem_map_of_mem RespRel.related_aid hr2
  rw [hnone]

/-- after the outer loop the stored rows are exactly the row-wise type
update described by the spec -/
theorem mergeLoop_st (resp : List RespRel) (st : List StoredRel)
    (acc : List NewRel) (hnd : (st.map StoredRel.related_aid).Nodup)
    (hresp : (respAids resp).Nodup) :
    (mergeLoop resp (st, acc)).1 = st.map (respTypeUpdate resp) := by
  induction resp generalizing st acc with
  | nil =>
      simp only [mergeLoop]
      symm
      calc st.map (respTypeUpdate [])
          = st.map id := List.map_congr_left fun sr _ => respTypeUpdate_nil sr
        _ = st := List.map_id st
  | cons r rs ih =>
      obtain ⟨hrHead, hrespTail⟩ :
          (∀ x ∈ rs, ¬ x.related_aid = r.related_aid) ∧
            (rs.map RespRel.related_aid).Nodup := by
        simpa [respAids] using hresp
      have hrespTail2 : (respAids rs).Nodup := by
        simpa [respAids] using hrespTail
      by_cases hemp : hits st r.related_aid = []
      · have hnone := (hits_eq_nil st r.related_aid).mp hemp
        have hstep : mergeLoop (r :: rs) (st, acc)
            = mergeLoop rs
                (st, acc ++ [NewRel.fresh r.related_aid r.relation_type]) := by
          simp [mergeLoop, hemp]
        rw [hstep, ih st _ hnd hrespTail2]
        apply List.map_congr_left
        intro sr hsr
        have hne : (r.related_aid == sr.related_aid) = false := by
          have h2 : ¬ (sr.related_aid == r.related_aid) = true :=
            List.find?_eq_none.mp hnone sr hsr
          have h3 : ¬ sr.related_aid = r.related_aid := fun hc => h2 (by simp [hc])
          simp [beq_eq_false_iff_ne]
          exact fun hc => h3 hc.symm
        rw [respTypeUpdate_cons_ne r rs sr hne]
      · obtain ⟨sr0, hf⟩ :
            ∃ sr0, st.find? (fun sr => sr.related_aid == r.related_aid)
              = some sr0 := by
          cases hcase : st.find? (fun sr => sr.related_aid == r.related_aid)
            with
          | none => exact absurd ((hits_eq_nil st r.related_aid).mpr hcase) hemp
          | some x => exact ⟨x, rfl⟩
        have hstep : mergeLoop (r :: rs) (st, acc)
            = mergeLoop rs (overwrite st r.related_aid r.relation_type,
                acc ++ (hits st r.related_aid).map fun sr =>
                  NewRel.kept sr.pk) := by
          have h2 : (hits st r.related_aid).isEmpty = false :=
            List.isEmpty_eq_false.mpr hemp
          simp [mergeLoop, h2]
        rw [hstep, ih _ _ (by rw [overwrite_aid]; exact hnd) hrespTail2]
        unfold overwrite
        rw [List.map_map]
        apply List.map_congr_left
        intro sr hsr
        by_cases ha : sr.related_aid = r.related_aid
        · have hstep2 : (respTypeUpdate rs ∘ fun sr =>
              if sr.related_aid = r.related_aid then
                { sr with relation_type := r.relation_type }
              else sr) sr
              = respTypeUpdate rs { sr with relation_type := r.relation_type }
              := by
            simp [Function.comp, ha]
          rw [hstep2]
          have hupd : respTypeUpdate rs
              { sr with relation_type := r.relation_type }
              = { sr with relation_type := r.relation_type } := by
            apply respTypeUpdate_not_mem
            intro hmem
            simp only [respAids, List.mem_map] at hmem
            obtain ⟨x, hx, hxa⟩ := hmem
            exact hrHead x hx (by simpa [ha] using hxa)
          rw [hupd, respTypeUpdate_cons_eq r rs sr (by simp [ha])]
        · have hstep2 : (respTypeUpdate rs ∘ fun sr =>
              if sr.related_aid = r.related_aid then
                { sr with relation_type := r.relation_type }
              else sr) sr = respTypeUpdate rs sr := by
            simp [Function.comp, ha]
          rw [hstep2,
            respTypeUpdate_cons_ne r rs sr
              (beq_eq_false_iff_ne.mpr fun hc => ha hc.symm)]

/-- after the outer loop new_relations is exactly the per-response entry
list described by the spec -/
theorem mergeLoop_acc (resp : List RespRel) (st : List StoredRel)
    (acc : List NewRel) (hnd : (st.map StoredRel.related_aid).Nodup)
    (hresp : (respAids resp).Nodup) :
    (mergeLoop resp (st, acc)).2 = acc ++ resp.map (specNewRel st) := by
  induction resp generalizing st acc with
  | nil => simp [mergeLoop]
  | cons r rs ih =>
      obtain ⟨hrHead, hrespTail⟩ :
          (∀ x ∈ rs, ¬ x.related_aid = r.related_aid) ∧
            (rs.map RespRel.related_aid).Nodup := by
        simpa [respAids] using hresp
      have hrespTail2 : (respAids rs).Nodup := by
        simpa [respAids] using hrespTail
      by_cases hemp : hits st r.related_aid = []
      · have hnone := (hits_eq_nil st r.related_aid).mp hemp
        have hstep : mergeLoop (r :: rs) (st, acc)
            = mergeLoop rs
                (st, acc ++ [NewRel.fresh r.related_aid r.relation_type]) := by
          simp [mergeLoop, hemp]
        rw [hstep, ih st _ hnd hrespTail2]
        have hhead : specNewRel st r
            = NewRel.fresh r.related_aid r.relation_type := by
          unfold specNewRel; rw [hnone]
        simp [hhead]
      · obtain ⟨sr0, hf⟩ :
            ∃ sr0, st.find? (fun sr => sr.related_aid == r.related_aid)
              = some sr0 := by
          cases hcase : st.find? (fun sr => sr.related_aid == r.related_aid)
            with
          | none => exact absurd ((hits_eq_nil st r.related_aid).mpr hcase) hemp
          | some x => exact ⟨x, rfl⟩
        have hhits : hits st r.related_aid = [sr0] :=
          hits_of_find?_some st r.related_aid sr0 hnd hf
        have hstep : mergeLoop (r :: rs) (st, acc)
            = mergeLoop rs (overwrite st r.related_aid r.relation_type,
                acc ++ (hits st r.related_aid).map fun sr =>
                  NewRel.kept sr.pk) := by
          have h2 : (hits st r.related_aid).isEmpty = false :=
            List.isEmpty_eq_false.mpr hemp
          simp [mergeLoop, h2]
        rw [hstep,
          ih _ _ (by rw [overwrite_aid]; exact hnd) hrespTail2]
        have hmap : rs.map (specNewRel
              (overwrite st r.related_aid r.relation_type))
            = rs.map (specNewRel st) :=
          List.map_congr_left fun r2 _ =>
            specNewRel_overwrite st r.related_aid r.relation_type r2
        have hhead : specNewRel st r = NewRel.kept sr0.pk := by
          unfold specNewRel; rw [hf]
        simp [hhits, hmap, hhead]

theorem resolveRel_kept (st : List StoredRel) (k : Nat) :
    resolveRel st (NewRel.kept k)
      = match st.find? (fun sr => sr.pk == k) with
        | some sr => ⟨some k, sr.related_aid, sr.relation_type⟩
        | none => ⟨some k, 0, 0⟩ := rfl

theorem resolveRel_fresh (st : List StoredRel) (a t : Nat) :
    resolveRel st (NewRel.fresh a t) = ⟨none, a, t⟩ := rfl

/-- full characterization of the relation reconciliation: the final relation
list realizes the three-way diff keyed by related id, and exactly the stored
rows whose related id the response no longer reports are deleted -/
theorem mergeRelations_spec (stored : List StoredRel) (resp : List RespRel)
    (hpk : (stored.map StoredRel.pk).Nodup)
    (haid : (stored.map StoredRel.related_aid).Nodup)
    (hresp : (respAids resp).Nodup) :
    (mergeRelations stored resp).1 = resp.map (specMergedRel stored) ∧
    (mergeRelations stored resp).2
      = stored.filter
          (fun sr => !(decide (sr.related_aid ∈ respAids resp))) := by
  have hst := mergeLoop_st resp stored [] haid hresp
  have hacc := mergeLoop_acc resp stored [] haid hresp
  constructor
  · show (mergeLoop resp (stored, [])).2.map
        (resolveRel (mergeLoop resp (stored, [])).1)
        = resp.map (specMergedRel stored)
    rw [hacc, hst]
    simp only [List.nil_append]
    rw [List.map_map]
    apply List.map_congr_left
    intro r hr
    simp only [Function.comp]
    cases hfind : stored.find? (fun sr => sr.related_aid == r.related_aid)
      with
    | none =>
        have h1 : specNewRel stored r
            = NewRel.fresh r.related_aid r.relation_type := by
          unfold specNewRel; rw [hfind]
        have h2 : specMergedRel stored r
            = ⟨none, r.related_aid, r.relation_type⟩ := by
          unfold specMergedRel; rw [hfind]
        rw [h1, h2, resolveRel_fresh]
    | some sr0 =>
        have hsr0mem : sr0 ∈ stored := List.mem_of_find?_eq_some hfind
        have hsr0aid : sr0.related_aid = r.related_aid := by
          have hp := List.find?_some hfind
          simpa using hp
        have h1 : specNewRel stored r = NewRel.kept sr0.pk := by
          unfold specNewRel; rw [hfind]
        have h2 : specMergedRel stored r
            = ⟨some sr0.pk, r.related_aid, r.relation_type⟩ := by
          unfold specMergedRel; rw [hfind]
        rw [h1, h2, resolveRel_kept]
        have hq : ((fun sr => sr.pk == sr0.pk) ∘ respTypeUpdate resp)
            = fun sr : StoredRel => sr.pk == sr0.pk := by
          funext sr; simp [Function.comp, respTypeUpdate_pk]
        rw [List.find?_map, hq,
          find?_map_self StoredRel.pk stored hpk sr0 hsr0mem]
        have hfr : resp.find? (fun r2 => r2.related_aid == sr0.related_aid)
            = some r := by
          rw [hsr0aid]
          exact find?_map_self RespRel.related_aid resp
            (by simpa [respAids] using hresp) r hr
        have hupd : respTypeUpdate resp sr0
            = { sr0 with relation_type := r.relation_type } := by
          unfold respTypeUpdate; rw [hfr]
        simp [hupd, hsr0aid]
  · show deletedRows (mergeLoop resp (stored, [])).1
        (mergeLoop resp (stored, [])).2
        = stored.filter
            (fun sr => !(decide (sr.related_aid ∈ respAids resp)))
    rw [hacc, hst]
    simp only [List.nil_append]
    unfold deletedRows
    rw [List.filter_map]
    have hpred : ∀ sr ∈ stored,
        ((fun sr2 => !(decide (NewRel.kept sr2.pk
            ∈ resp.map (specNewRel stored)))) ∘ respTypeUpdate resp) sr
          = (fun sr2 => !(decide (sr2.related_aid ∈ respAids resp))) sr := by
      intro sr hsr
      simp only [Function.comp, respTypeUpdate_pk]
      have hiff : (NewRel.kept sr.pk ∈ resp.map (specNewRel stored))
          ↔ sr.related_aid ∈ respAids resp := by
        constructor
        · intro hmem
          obtain ⟨r, hr, hent⟩ := List.mem_map.mp hmem
          cases hfind :
              stored.find? (fun sr2 => sr2.related_aid == r.related_aid)
            with
          | none =>
              rw [show specNewRel stored r
                  = NewRel.fresh r.related_aid r.relation_type from by
                unfold specNewRel; rw [hfind]] at hent
              cases hent
          | some sr1 =>
              rw [show specNewRel stored r = NewRel.kept sr1.pk from by
                unfold specNewRel; rw [hfind]] at hent
              have hpkeq : sr1.pk = sr.pk := by
                injection hent
              have hsr1mem : sr1 ∈ stored := List.mem_of_find?_eq_some hfind
              have hsr1aid : sr1.related_aid = r.related_aid := by
                have hp := List.find?_some hfind
                simpa using hp
              have : sr1 = sr :=
                List.inj_on_of_nodup_map hpk hsr1mem hsr hpkeq
              rw [← this, hsr1aid]
              exact List.mem_map_of_mem RespRel.related_aid hr
        · intro hmem
          obtain ⟨r, hr, hra⟩ := List.mem_map.mp hmem
          have hfind :
              stored.find? (fun sr2 => sr2.related_aid == r.related_aid)
                = some sr := by
            rw [hra]
            exact find?_map_self StoredRel.related_aid stored haid sr hsr
          have : specNewRel stored r = NewRel.kept sr.pk := by
            unfold specNewRel; rw [hfind]
          rw [← this]
          exact List.mem_map_of_mem (specNewRel stored) hr
      rw [decide_eq_decide.mpr hiff]
    rw [List.filter_congr hpred]
    have hid : ∀ sr ∈ stored.filter
        (fun sr2 => !(decide (sr2.related_aid ∈ respAids resp))),
        respTypeUpdate resp sr = sr := by
      intro sr hsr
      have hm := List.mem_filter.mp hsr
      apply respTypeUpdate_not_mem
      simpa using hm.2
    calc (stored.filter
          (fun sr2 => !(decide (sr2.related_aid ∈ respAids resp)))).map
            (respTypeUpdate resp)
        = (stored.filter
            (fun sr2 => !(decide (sr2.related_aid ∈ respAids resp)))).map id
          := List.map_congr_left hid
      _ = stored.filter
            (fun sr2 => !(decide (sr2.related_aid ∈ respAids resp)))
          := List.map_id _

/-- C1: anime relation reconciliation is a three-way diff keyed by related
id: a stored relation whose related id is reported again keeps its storage
identity with the type overwritten, a reported relation with no stored
counterpart is inserted as a new row, and a stored relation whose related id
is absent from the response is deleted; in particular stored relations
{(1,A),(2,B)} merged with reported {(2,Bx),(3,C)} give exactly
{(2,Bx),(3,C)} with (1,A) deleted. -/
theorem c1_relation_merge (stored : List StoredRel) (resp : List RespRel)
    (hpk : (stored.map StoredRel.pk).Nodup)
    (haid : (stored.map StoredRel.related_aid).Nodup)
    (hresp : (respAids resp).Nodup) :
    (mergeRelations stored resp).1 = resp.map (specMergedRel stored) ∧
    (mergeRelations stored resp).2
      = stored.filter
          (fun sr => !(decide (sr.related_aid ∈ respAids resp))) ∧
    mergeRelations [⟨10, 1, 100⟩, ⟨20, 2, 200⟩] [⟨2, 201⟩, ⟨3, 300⟩]
      = ([⟨some 20, 2, 201⟩, ⟨none, 3, 300⟩], [⟨10, 1, 100⟩]) := by
  obtain ⟨h1, h2⟩ := mergeRelations_spec stored resp hpk haid hresp
  exact ⟨h1, h2, by decide⟩

/-- C1 witness: the spec example evaluated through the theorem -/
theorem c1_relation_merge_witness :
    (mergeRelations [⟨10, 1, 100⟩, ⟨20, 2, 200⟩] [⟨2, 201⟩, ⟨3, 300⟩]).1
      = [RespRel.mk 2 201, RespRel.mk 3 300].map
          (specMergedRel [⟨10, 1, 100⟩, ⟨20, 2, 200⟩]) :=
  (c1_relation_merge [⟨10, 1, 100⟩, ⟨20, 2, 200⟩] [⟨2, 201⟩, ⟨3, 300⟩]
    (by decide) (by decide) (by decide)).1

/-- committing preserves related id and type of every relation row -/
theorem assignPks_proj (supply : List Nat) (vs : List RelView) :
    (assignPks supply vs).map (fun sr => (sr.related_aid, sr.relation_type))
      = vs.map (fun v => (v.related_aid, v.relation_type)) := by
  induction vs generalizing supply with
  | nil => rfl
  | cons v vs ih =>
      cases hv : v.ident with
      | some k => simp [assignPks, hv, ih]
      | none =>
          cases supply with
          | nil => simp [assignPks, hv, ih]
          | cons k ks => simp [assignPks, hv, ih]

/-- committing a list of rows that all kept their identity is a no-op -/
theorem assignPks_kept (supply : List Nat) (l : List StoredRel) :
    assignPks supply (l.map fun sr =>
        RelView.mk (some sr.pk) sr.related_aid sr.relation_type) = l := by
  induction l generalizing supply with
  | nil => rfl
  | cons sr l ih => simp [assignPks, ih]

/-- when the stored rows agree with the response pointwise, the diff result
keeps every row with its identity -/
theorem specMerged_eq_kept (st : List StoredRel) (resp : List RespRel)
    (hresp : (respAids resp).Nodup)
    (hagree : st.map (fun sr => (sr.related_aid, sr.relation_type))
        = resp.map (fun r => (r.related_aid, r.relation_type))) :
    resp.map (specMergedRel st)
      = st.map (fun sr =>
          RelView.mk (some sr.pk) sr.related_aid sr.relation_type) := by
  induction st generalizing resp with
  | nil =>
      cases resp with
      | nil => rfl
      | cons r rs => simp at hagree
  | cons sr st2 ih =>
      cases resp with
      | nil => simp at hagree
      | cons r rs =>
          simp only [List.map_cons, List.cons.injEq] at hagree
          obtain ⟨hpair, htail⟩ := hagree
          have haid : sr.related_aid = r.related_aid := by
            simpa using congrArg Prod.fst hpair
          have htype : sr.relation_type = r.relation_type := by
            simpa using congrArg Prod.snd hpair
          obtain ⟨hrHead, hrespTail⟩ :
              (∀ x ∈ rs, ¬ x.related_aid = r.related_aid) ∧
                (rs.map RespRel.related_aid).Nodup := by
            simpa [respAids] using hresp
          simp only [List.map_cons]
          congr 1
          · have htrue : (sr.related_aid == r.related_aid) = true := by
              simp [haid]
            simp only [specMergedRel, List.find?_cons, htrue]
            simp [haid, htype]
          · have hstep : rs.map (specMergedRel (sr :: st2))
                = rs.map (specMergedRel st2) := by
              apply List.map_congr_left
              intro r2 hr2
              have hfalse : (sr.related_aid == r2.related_aid) = false := by
                apply beq_eq_false_iff_ne.mpr
                intro hc
                exact hrHead r2 hr2 (by rw [← hc, haid])
              simp only [specMergedRel, List.find?_cons, hfalse]
            rw [hstep]
            exact ih rs (by simpa [respAids] using hrespTail) htail

/-- merging a response that already agrees with the stored rows keeps every
row (with identity and type unchanged) and deletes nothing -/
theorem mergeRelations_agree (st : List StoredRel) (resp : List RespRel)
    (hpk : (st.map StoredRel.pk).Nodup)
    (hresp : (respAids resp).Nodup)
    (hagree : st.map (fun sr => (sr.related_aid, sr.relation_type))
        = resp.map (fun r => (r.related_aid, r.relation_type))) :
    mergeRelations st resp
      = (st.map (fun sr =>
          RelView.mk (some sr.pk) sr.related_aid sr.relation_type), []) := by
  have haidlist : st.map StoredRel.related_aid = respAids resp := by
    have h2 := congrArg (List.map Prod.fst) hagree
    simpa [List.map_map, Function.comp, respAids] using h2
  have haid : (st.map StoredRel.related_aid).Nodup := by
    rw [haidlist]; exact hresp
  obtain ⟨hv, hd⟩ := mergeRelations_spec st resp hpk haid hresp
  have hd2 : (mergeRelations st resp).2 = [] := by
    rw [hd]
    apply List.filter_eq_nil_iff.mpr
    intro sr hsr hb
    have hmem : sr.related_aid ∈ respAids resp := by
      rw [← haidlist]
      exact List.mem_map_of_mem StoredRel.related_aid hsr
    simp [hmem] at hb
  have hv2 : (mergeRelations st resp).1
      = st.map (fun sr =>
          RelView.mk (some sr.pk) sr.related_aid sr.relation_type) := by
    rw [hv]
    exact specMerged_eq_kept st resp hresp hagree
  exact Prod.ext_iff.mpr ⟨hv2, hd2⟩

/-- C7: merging the identical response twice into an existing cache row
yields the same scalar field values and the identical relation row set as
merging it once, and the second merge deletes nothing. -/
theorem c7_merge_idempotent (row : AnimeRow) (sc : List (String × String))
    (resp : List RespRel) (now now2 : Nat) (supply supply2 : List Nat)
    (hpk : (row.relations.map StoredRel.pk).Nodup)
    (haid : (row.relations.map StoredRel.related_aid).Nodup)
    (hresp : (respAids resp).Nodup)
    (hpk1 : (((mergeAnimeRow row sc resp now supply).1.relations).map
        StoredRel.pk).Nodup) :
    (mergeAnimeRow (mergeAnimeRow row sc resp now supply).1 sc resp now2
        supply2).1.scalars
      = (mergeAnimeRow row sc resp now supply).1.scalars ∧
    (mergeAnimeRow (mergeAnimeRow row sc resp now supply).1 sc resp now2
        supply2).1.relations
      = (mergeAnimeRow row sc resp now supply).1.relations ∧
    (mergeAnimeRow (mergeAnimeRow row sc resp now supply).1 sc resp now2
        supply2).2 = [] := by
  have hrels1 : (mergeAnimeRow row sc resp now supply).1.relations
      = assignPks supply (resp.map (specMergedRel row.relations)) := by
    show assignPks supply (mergeRelations row.relations resp).1 = _
    rw [(mergeRelations_spec row.relations resp hpk haid hresp).1]
  have hagree : (mergeAnimeRow row sc resp now supply).1.relations.map
        (fun sr => (sr.related_aid, sr.relation_type))
      = resp.map (fun r => (r.related_aid, r.relation_type)) := by
    rw [hrels1, assignPks_proj, List.map_map]
    apply List.map_congr_left
    intro r hr
    simp only [Function.comp]
    unfold specMergedRel
    cases row.relations.find? (fun sr => sr.related_aid == r.related_aid) <;>
      rfl
  have hmr2 := mergeRelations_agree
    (mergeAnimeRow row sc resp now supply).1.relations resp hpk1 hresp hagree
  refine ⟨rfl, ?_, ?_⟩
  · show assignPks supply2
        (mergeRelations (mergeAnimeRow row sc resp now supply).1.relations
          resp).1
      = (mergeAnimeRow row sc resp now supply).1.relations
    rw [hmr2]
    exact assignPks_kept supply2 _
  · show (mergeRelations (mergeAnimeRow row sc resp now supply).1.relations
        resp).2 = []
    rw [hmr2]

/-- C7 witness at a concrete row, response and pk supply -/
theorem c7_merge_idempotent_witness :
    (mergeAnimeRow (mergeAnimeRow
        (AnimeRow.mk [("year", "2001")] 0 [⟨10, 1, 100⟩, ⟨20, 2, 200⟩])
        [("year", "2002")] [⟨2, 201⟩, ⟨3, 300⟩] 5 [30]).1
        [("year", "2002")] [⟨2, 201⟩, ⟨3, 300⟩] 9 [40]).1.scalars
      = (mergeAnimeRow
          (AnimeRow.mk [("year", "2001")] 0 [⟨10, 1, 100⟩, ⟨20, 2, 200⟩])
          [("year", "2002")] [⟨2, 201⟩, ⟨3, 300⟩] 5 [30]).1.scalars ∧
    (mergeAnimeRow (mergeAnimeRow
        (AnimeRow.mk [("year", "2001")] 0 [⟨10, 1, 100⟩, ⟨20, 2, 200⟩])
        [("year", "2002")] [⟨2, 201⟩, ⟨3, 300⟩] 5 [30]).1
        [("year", "2002")] [⟨2, 201⟩, ⟨3, 300⟩] 9 [40]).1.relations
      = (mergeAnimeRow
          (AnimeRow.mk [("year", "2001")] 0 [⟨10, 1, 100⟩, ⟨20, 2, 200⟩])
          [("year", "2002")] [⟨2, 201⟩, ⟨3, 300⟩] 5 [30]).1.relations ∧
    (mergeAnimeRow (mergeAnimeRow
        (AnimeRow.mk [("year", "2001")] 0 [⟨10, 1, 100⟩, ⟨20, 2, 200⟩])
        [("year", "2002")] [⟨2, 201⟩, ⟨3, 300⟩] 5 [30]).1
        [("year", "2002")] [⟨2, 201⟩, ⟨3, 300⟩] 9 [40]).2 = [] :=
  c7_merge_idempotent
    (AnimeRow.mk [("year", "2001")] 0 [⟨10, 1, 100⟩, ⟨20, 2, 200⟩])
    [("year", "2002")] [⟨2, 201⟩, ⟨3, 300⟩] 5 9 [30] [40]
    (by decide) (by decide) (by decide) (by decide)

end Adbb

